import Mathlib

/-!
# Verification of the capture / persist / upload / poll pipeline

Shallow embedding of the video capture-and-submit pipeline of this
repository (an Expo/React-Native javelin-coaching app) and proofs of the
specified properties.

The embedded operations are:

* `stopRecording` — the `stopRecording` handler of the camera screen
  (`src/app/(tabs)/camera.tsx`), covering the minimum-duration check, the
  large-file bypass and the copy-to-storage path;
* `handleResponse` / `pollStep` / `pollRun` — the 2000 ms status-polling
  `useEffect` of the processing screen (`src/app/processing.tsx`), as a
  step function over an explicit event trace (interval ticks, response
  arrivals, effect cleanup), which makes the interleavings of in-flight
  requests with cancellation expressible;
* `analyzeVideo` — the upload handler of the preview screen
  (`src/app/preview.tsx`), with the axios resolve/reject behaviour for
  HTTP statuses made explicit;
* `prune` — the cache-pruning block of the feedback screen
  (`src/app/splash.tsx`, `FeedbackScreen.cacheVideo`), which runs on the
  cache directory of downloaded result videos; and `persistCopyStep` /
  `persistCopies` — the repeated small-file copy path of the camera
  screen, which accumulates `javelin_throw_<epoch-millis>.mp4` copies in
  the document directory, a directory no code path of the repository
  prunes;
* `cacheEffectCleanup` / `runTeardown` — the teardown of the caching
  effect of the final feedback screen, as a list of file-system effects.

Machine integers do not overflow in any embedded computation (sizes,
timestamps and counters are plain numbers in the source), so `Nat` is used
throughout.  `Date.now()` values are modelled as abstract `Nat` inputs.
-/

/-! ## Capture session: `stopRecording` of `src/app/(tabs)/camera.tsx` -/

/-- Minimum accepted recording duration in milliseconds
(`if (elapsed < 1000)` in `stopRecording`). -/
def MIN_DURATION : Nat := 1000

/-- Size threshold above which a recorded file is not copied
(`fileInfo.size > 50 * 1024 * 1024` in `stopRecording`). -/
def LARGE_FILE_THRESHOLD : Nat := 50 * 1024 * 1024

/-- `startTimeRef.current ? Date.now() - startTimeRef.current : 0`.
A `none` start time (and, per JavaScript truthiness, a `0` start time)
yields elapsed `0`. -/
def elapsedMs (startTime : Option Nat) (now : Nat) : Nat :=
  match startTime with
  | none => 0
  | some t => if t = 0 then 0 else now - t

/-- `finalUri.startsWith('file://')`, computed on the character list. -/
def startsWithFileScheme (uri : String) : Bool :=
  "file://".data.isPrefixOf uri.data

/-- `if (Platform.OS === 'android' && !finalUri.startsWith('file://'))
finalUri = `file://${finalUri}``. -/
def normalizeUri (platformAndroid : Bool) (uri : String) : String :=
  if platformAndroid && !(startsWithFileScheme uri) then "file://" ++ uri else uri

/-- The large-file test
`fileInfo.exists && 'size' in fileInfo && fileInfo.size && fileInfo.size > 50 * 1024 * 1024`:
`fileSize = none` models a missing `size` field, and a present size of `0`
is falsy in JavaScript. -/
def largeFileCond (fileExists : Bool) (fileSize : Option Nat) : Bool :=
  fileExists &&
    (match fileSize with
     | none => false
     | some s => (s != 0) && decide (LARGE_FILE_THRESHOLD < s))

/-- The generated copy filename `javelin_throw_${Date.now()}.mp4`. -/
def persistName (t : Nat) : String :=
  "javelin_throw_" ++ Nat.repr t ++ ".mp4"

/-- Environment of one `stopRecording` call: the results of the awaited
device and file-system operations it performs. -/
structure StopEnv where
  /-- `Date.now()` at entry (used for the elapsed-time check). -/
  now : Nat
  /-- `Date.now()` at the copy-name generation. -/
  copyNow : Nat
  /-- the awaited `cameraRef.current.stopRecording()` and the recording
  promise did not throw -/
  stopOk : Bool
  /-- the `uri` resolved from `recordingPromiseRef.current`
  (`none`: no promise stored or no `uri` in the result) -/
  videoUri : Option String
  /-- `FileSystem.getInfoAsync` did not throw -/
  infoOk : Bool
  /-- `fileInfo.exists` -/
  fileExists : Bool
  /-- `fileInfo.size` (`none`: the field is absent) -/
  fileSize : Option Nat
  /-- `FileSystem.copyAsync` did not throw -/
  copyOk : Bool
  /-- `Platform.OS === 'android'` -/
  platformAndroid : Bool
  /-- `FileSystem.documentDirectory` -/
  documentDirectory : String
deriving DecidableEq

/-- Observable outcome of one `stopRecording` call. -/
inductive StopOutcome where
  /-- guard return: `!cameraRef.current || !isRecording` -/
  | notRecording
  /-- the `elapsed < 1000` branch: alert, no navigation -/
  | tooShort
  /-- the outer `catch`: alert, no navigation -/
  | stopError
  /-- `!video?.uri`: alert, no navigation -/
  | noVideo
  /-- `router.push('/preview', { videoUri })`; `isCopy` records whether
  `videoUri` is the copy in `documentDirectory` -/
  | navigate (videoUri : String) (isCopy : Bool)
deriving DecidableEq

/-- Result of one `stopRecording` call: its outcome, and whether the
underlying device stop (`cameraRef.current.stopRecording()`) was issued. -/
structure StopResult where
  outcome : StopOutcome
  deviceStopIssued : Bool
deriving DecidableEq

/-- The `stopRecording` handler of `src/app/(tabs)/camera.tsx`
(lines 170-276), as a function of the component state
(`cameraRef`, `isRecording`, `startTimeRef`) and of the results of the
awaited operations. -/
def stopRecording (hasCameraRef isRecording : Bool) (startTime : Option Nat)
    (env : StopEnv) : StopResult :=
  if !hasCameraRef || !isRecording then ⟨.notRecording, false⟩
  else if elapsedMs startTime env.now < MIN_DURATION then ⟨.tooShort, true⟩
  else if !env.stopOk then ⟨.stopError, true⟩
  else
    match env.videoUri with
    | none => ⟨.noVideo, true⟩
    | some uri =>
      if !env.infoOk then
        ⟨.navigate (normalizeUri env.platformAndroid uri) false, true⟩
      else if largeFileCond env.fileExists env.fileSize then
        ⟨.navigate (normalizeUri env.platformAndroid uri) false, true⟩
      else if env.copyOk then
        ⟨.navigate (env.documentDirectory ++ persistName env.copyNow) true, true⟩
      else
        ⟨.navigate (normalizeUri env.platformAndroid uri) false, true⟩

/-! ## Job status poller: the polling `useEffect` of `src/app/processing.tsx`

The effect installs `setInterval(..., 2000)`; each tick issues
`axios.get(statusUrl)` and, when the response arrives, runs the handler
below.  Ticks, response arrivals and the effect cleanup are modelled as an
explicit event trace so that overlapping in-flight requests and
cancellation races can be expressed. -/

/-- One settled status request: either an HTTP success whose JSON body has
the given `status` and `message` fields, or a request error (axios threw). -/
inductive PollResponse where
  | ok (status : String) (message : String)
  | reqError (message : String)
deriving DecidableEq

/-- Observable state of the polling effect. -/
structure PollState where
  /-- the interval has not been cleared -/
  intervalActive : Bool
  /-- status requests issued but not yet settled -/
  inFlight : Nat
  /-- total status requests issued -/
  queriesIssued : Nat
  /-- number of `router.push('/feedback', ...)` hand-offs (terminal success) -/
  terminalSuccess : Nat
  /-- number of failure alerts from the `catch` branch (terminal failure) -/
  terminalFailure : Nat
  /-- `statusMessage` -/
  statusMessage : String
deriving DecidableEq

/-- State when the effect installs the interval. -/
def initialPollState : PollState :=
  ⟨true, 0, 0, 0, 0, "Processing your throw..."⟩

/-- Events that drive the polling effect. -/
inductive PollEvent where
  /-- the 2000 ms interval fires -/
  | tick
  /-- one in-flight status request settles with `r` -/
  | respond (r : PollResponse)
  /-- the effect cleanup runs (navigation away / unmount) -/
  | cleanup
deriving DecidableEq

/-- The response handler of the polling callback
(`src/app/processing.tsx` lines 99-129): `completed` navigates to the
feedback screen and clears the interval; `processing` updates the status
message; any other parsed status falls into an empty `else` branch (the
`throw` there is commented out); a request error alerts and clears the
interval. -/
def handleResponse (s : PollState) (r : PollResponse) : PollState :=
  match r with
  | .ok status msg =>
    if status = "completed" then
      { s with statusMessage := "Processing complete!",
               terminalSuccess := s.terminalSuccess + 1,
               intervalActive := false }
    else if status = "processing" then
      { s with statusMessage := msg }
    else
      s
  | .reqError _ =>
    { s with statusMessage := "",
             terminalFailure := s.terminalFailure + 1,
             intervalActive := false }

/-- One step of the polling effect.  A tick issues a request only while the
interval is installed; a settling response always runs the handler — the
callback holds no mounted-flag, so cancellation does not suppress it. -/
def pollStep (s : PollState) : PollEvent → PollState
  | .tick =>
    if s.intervalActive then
      { s with inFlight := s.inFlight + 1, queriesIssued := s.queriesIssued + 1 }
    else s
  | .respond r =>
    if s.inFlight = 0 then s
    else handleResponse { s with inFlight := s.inFlight - 1 } r
  | .cleanup => { s with intervalActive := false }

/-- Run the polling effect over an event trace. -/
def pollRun (s : PollState) (events : List PollEvent) : PollState :=
  events.foldl pollStep s

/-- A well-behaved polling prefix: each interval tick's request settles
with status `processing` (carrying the given message) before the next
event occurs. -/
def seqPolls : List String → List PollEvent
  | [] => []
  | m :: ms => .tick :: .respond (.ok "processing" m) :: seqPolls ms

/-! ## Submission client: `analyzeVideo` of `src/app/preview.tsx` -/

/-- The JSON body of the upload response, restricted to the fields the
handler reads (`error` on failure; `file_id` and `status_url` on 202). -/
structure UploadBody where
  error : Option String
  message : String
  file_id : String
  status_url : String
deriving DecidableEq

/-- Outcome of the upload POST at the transport layer: an HTTP response,
or a network failure / 30 s timeout with no response. -/
inductive PostOutcome where
  | response (status : Nat) (body : UploadBody)
  | netError (message : String)
deriving DecidableEq

/-- Observable result of `analyzeVideo`. -/
inductive SubmitResult where
  /-- guard alert: no video selected -/
  | noVideo
  /-- `router.push('/processing', { fileId, statusUrl })`: the upload job
  is handed to the poller -/
  | navigate (fileId statusUrl : String)
  /-- the `catch` branch: `Alert.alert('Upload Failed', reason)` -/
  | uploadFailed (reason : String)
deriving DecidableEq

/-- The transport error message axios attaches when it rejects a response
with a non-2xx status. -/
def axiosStatusMessage (status : Nat) : String :=
  "Request failed with status code " ++ Nat.repr status

/-- The upload handler of `src/app/preview.tsx` (lines 78-157).  axios
resolves exactly for statuses in [200, 300); any other status rejects with
an error carrying the response, and the `catch` branch then reads
`error.response?.data?.error || error.message`.  A resolved status other
than 202 raises `Error('Unexpected response status')`, which carries no
response, so the `catch` shows that error's own message. -/
def analyzeVideo (selectedVideo : Option String) (post : PostOutcome) : SubmitResult :=
  match selectedVideo with
  | none => .noVideo
  | some _ =>
    match post with
    | .netError msg => .uploadFailed msg
    | .response status body =>
      if 200 ≤ status ∧ status < 300 then
        if status = 202 then .navigate body.file_id body.status_url
        else .uploadFailed "Unexpected response status"
      else
        .uploadFailed (body.error.getD (axiosStatusMessage status))

/-! ## Local asset store: the cache-prune block of `src/app/splash.tsx`
(`FeedbackScreen.cacheVideo`, lines 233-267) -/

/-- Maximum number of cached video files retained by the prune. -/
def MAX_CACHED_ASSETS : Nat := 3

/-- The extensions of the filename heuristic `/\.(mp4|mov|avi|mkv)$/i`. -/
def videoExtensions : List String := [".mp4", ".mov", ".avi", ".mkv"]

/-- The characters of `f`, lowercased (for the case-insensitive match). -/
def lowerData (f : String) : List Char := f.data.map Char.toLower

/-- `/\.(mp4|mov|avi|mkv)$/i.test(f)`. -/
def hasVideoExt (f : String) : Bool :=
  videoExtensions.any fun e => e.data.isSuffixOf (lowerData f)

/-- Code-unit comparison of character lists, mirroring the JavaScript `>`
operator on strings (the names compared are ASCII, where code units and
code points coincide). -/
def charListLt : List Char → List Char → Bool
  | [], [] => false
  | [], _ :: _ => true
  | _ :: _, [] => false
  | a :: as, b :: bs => if a < b then true else if b < a then false else charListLt as bs

/-- `a > b` on JavaScript strings (strict, with operands swapped). -/
def strLtb (a b : String) : Bool := charListLt a.data b.data

/-- The non-strict filename order induced by the comparator
`(a, b) => (a.file > b.file ? 1 : -1)`. -/
def strLe (a b : String) : Prop := strLtb b a = false

instance : DecidableRel strLe := fun a b => by unfold strLe; infer_instance

/-- `Array.prototype.sort` with the comparator
`(a, b) => (a.file > b.file ? 1 : -1)`: ascending by filename. -/
def sortByName (l : List String) : List String :=
  l.insertionSort strLe

/-- The prune block: filter the directory listing to video filenames and,
when more than `MAX_CACHED_ASSETS` are present, delete the oldest beyond
that bound, oldest-first by filename; each delete is idempotent. -/
def prune (files : List String) : List String :=
  let videoFiles := files.filter hasVideoExt
  if MAX_CACHED_ASSETS < videoFiles.length then
    let sorted := sortByName videoFiles
    let toDelete := sorted.take (sorted.length - MAX_CACHED_ASSETS)
    toDelete.foldl (fun fs u => fs.erase u) files
  else files

/-- The effect of one successful `stopRecording` persist on the document
directory receiving the copies (`FileSystem.documentDirectory`,
`src/app/(tabs)/camera.tsx` lines 247-254): per the large-file test, an
asset above the threshold is referenced in place (no copy is written), any
other asset is copied into the directory under the generated name.  No
code path of the repository deletes from or prunes this directory — the
prune block of the feedback screen runs on the separate cache directory of
downloaded result videos. -/
def persistCopyStep (dir : List String) (t size : Nat) : List String :=
  if largeFileCond true (some size) then dir
  else persistName t :: dir

/-- Iterate `persistCopyStep` over a chronological list of
(timestamp, size) persist calls. -/
def persistCopies : List (Nat × Nat) → List String → List String
  | [], dir => dir
  | (t, sz) :: rest, dir => persistCopies rest (persistCopyStep dir t sz)

/-! ## Feedback screen teardown (`src/app/splash.tsx`, cleanup of the
caching effect, lines 286-296) -/

/-- Effects a teardown can perform. -/
inductive TeardownEffect where
  /-- `isMounted = false` -/
  | setUnmounted
  /-- `downloadResumableRef.current.cancelAsync()` -/
  | cancelDownload
  /-- `FileSystem.deleteAsync(uri, { idempotent: true })` -/
  | deleteFile (uri : String)
deriving DecidableEq

/-- The cleanup of the caching effect of the final feedback screen:
it clears the mounted flag and cancels an in-flight download, and
deliberately does not delete the cached file (the comment at the cleanup
states that deletion would race with playback). -/
def cacheEffectCleanup (hasDownloadRef : Bool) : List TeardownEffect :=
  .setUnmounted :: (if hasDownloadRef then [.cancelDownload] else [])

/-- Apply one teardown effect to the set of files on disk. -/
def applyEffect (files : List String) : TeardownEffect → List String
  | .deleteFile u => files.erase u
  | _ => files

/-- Run a teardown over the files on disk. -/
def runTeardown (files : List String) (effs : List TeardownEffect) : List String :=
  effs.foldl applyEffect files

/-! ## Theorems -/

/-! ### Capture session manager -/

/-- C3: a `stopRecording` call with elapsed time below 1000 ms still issues
the underlying device stop but ends in the too-short alert, never in a
navigation carrying an asset; with elapsed time at least 1000 ms and a
successful underlying stop (the device produced a `uri`), the call ends in
a navigation whose video URI references the produced file — either the
normalized original URI or the copy made from it in the document
directory. -/
theorem stopRecording_min_duration (startTime : Option Nat) (env : StopEnv) :
    (elapsedMs startTime env.now < MIN_DURATION →
      stopRecording true true startTime env = ⟨.tooShort, true⟩) ∧
    (MIN_DURATION ≤ elapsedMs startTime env.now → env.stopOk = true →
      ∀ u, env.videoUri = some u →
        ∃ uri isCopy,
          (stopRecording true true startTime env) = ⟨.navigate uri isCopy, true⟩ ∧
          (isCopy = false → uri = normalizeUri env.platformAndroid u) ∧
          (isCopy = true → uri = env.documentDirectory ++ persistName env.copyNow)) := by
  constructor
  · intro h
    simp [stopRecording, h]
  · intro h hstop u hu
    have h' : ¬ elapsedMs startTime env.now < MIN_DURATION := by omega
    cases hinfo : env.infoOk with
    | false =>
      exact ⟨normalizeUri env.platformAndroid u, false,
        by simp [stopRecording, h', hstop, hu, hinfo], fun _ => rfl, by simp⟩
    | true =>
      cases hlarge : largeFileCond env.fileExists env.fileSize with
      | true =>
        exact ⟨normalizeUri env.platformAndroid u, false,
          by simp [stopRecording, h', hstop, hu, hinfo, hlarge], fun _ => rfl, by simp⟩
      | false =>
        cases hcopy : env.copyOk with
        | true =>
          exact ⟨env.documentDirectory ++ persistName env.copyNow, true,
            by simp [stopRecording, h', hstop, hu, hinfo, hlarge, hcopy], by simp,
            fun _ => rfl⟩
        | false =>
          exact ⟨normalizeUri env.platformAndroid u, false,
            by simp [stopRecording, h', hstop, hu, hinfo, hlarge, hcopy], fun _ => rfl,
            by simp⟩

/-- Witness for C3 at concrete inputs: a 400 ms recording is rejected as
too short (with the device stop still issued), and a 1400 ms recording
whose copy succeeds navigates with the copied asset. -/
theorem stopRecording_min_duration_witness :
    (elapsedMs (some 5000) 5400 < MIN_DURATION ∧
      stopRecording true true (some 5000)
        ⟨5400, 5401, true, some "/rec/v.mp4", true, true, some 1000, true, false, "docs/"⟩ =
        ⟨.tooShort, true⟩) ∧
    (MIN_DURATION ≤ elapsedMs (some 5000) 6400 ∧
      ∃ uri isCopy,
        stopRecording true true (some 5000)
          ⟨6400, 6401, true, some "/rec/v.mp4", true, true, some 1000, true, false, "docs/"⟩ =
          ⟨.navigate uri isCopy, true⟩) := by
  refine ⟨⟨by decide, (stopRecording_min_duration (some 5000)
      ⟨5400, 5401, true, some "/rec/v.mp4", true, true, some 1000, true, false, "docs/"⟩).1
      (by decide)⟩, by decide, ?_⟩
  obtain ⟨uri, isCopy, heq, -, -⟩ := (stopRecording_min_duration (some 5000)
      ⟨6400, 6401, true, some "/rec/v.mp4", true, true, some 1000, true, false, "docs/"⟩).2
      (by decide) rfl "/rec/v.mp4" rfl
  exact ⟨uri, isCopy, heq⟩

/-- C9: a `stopRecording` call made while the recording flag is set but the
start timestamp is absent computes elapsed time 0 and therefore always
takes the too-short branch: it never navigates an asset onward. -/
theorem stopRecording_no_start_time (env : StopEnv) :
    stopRecording true true none env = ⟨.tooShort, true⟩ := by
  simp [stopRecording, elapsedMs, MIN_DURATION]

/-- C5: an asset whose reported size is strictly above the 50 MiB threshold
is never copied: the navigation carries the original URI normalized to a
platform-correct `file://` form, with `isCopy = false`. -/
theorem persist_large_file_bypass (startTime : Option Nat) (env : StopEnv)
    (u : String) (s : Nat)
    (hrec : MIN_DURATION ≤ elapsedMs startTime env.now)
    (hstop : env.stopOk = true) (hu : env.videoUri = some u)
    (hinfo : env.infoOk = true) (hex : env.fileExists = true)
    (hsize : env.fileSize = some s) (hbig : LARGE_FILE_THRESHOLD < s) :
    stopRecording true true startTime env =
      ⟨.navigate (normalizeUri env.platformAndroid u) false, true⟩ := by
  have h' : ¬ elapsedMs startTime env.now < MIN_DURATION := by omega
  have hlarge : largeFileCond env.fileExists env.fileSize = true := by
    have hs0 : s ≠ 0 := by
      have : 0 < LARGE_FILE_THRESHOLD := by decide
      omega
    simp [largeFileCond, hex, hsize, hs0, hbig]
  simp [stopRecording, h', hstop, hu, hinfo, hlarge]

/-- Witness for C5 at a 60 MiB asset on Android: the original URI is
passed through with the `file://` scheme prepended and no copy is made. -/
theorem persist_large_file_bypass_witness :
    LARGE_FILE_THRESHOLD < 60 * 1024 * 1024 ∧
    stopRecording true true (some 1000)
      ⟨6000, 6001, true, some "/rec/big.mp4", true, true, some (60 * 1024 * 1024), true,
        true, "docs/"⟩ =
      ⟨.navigate "file:///rec/big.mp4" false, true⟩ := by
  constructor
  · decide
  · have h := persist_large_file_bypass (some 1000)
      ⟨6000, 6001, true, some "/rec/big.mp4", true, true, some (60 * 1024 * 1024), true,
        true, "docs/"⟩
      "/rec/big.mp4" (60 * 1024 * 1024) (by decide) rfl rfl rfl rfl rfl (by decide)
    have hn : normalizeUri true "/rec/big.mp4" = "file:///rec/big.mp4" := by decide
    rw [hn] at h
    exact h

/-- C10: the large-file comparison is strict and copying is the default:
a size of exactly 50 MiB, a missing size field, and a reported size of 0
all take the copy path, producing the copy under the generated
`javelin_throw_<epoch-millis>.mp4` name; the no-copy bypass fires exactly
for an existing file whose size is strictly greater than the threshold. -/
theorem persist_copy_default (startTime : Option Nat) (env : StopEnv) (u : String)
    (hrec : MIN_DURATION ≤ elapsedMs startTime env.now)
    (hstop : env.stopOk = true) (hu : env.videoUri = some u)
    (hinfo : env.infoOk = true) (hcopy : env.copyOk = true) :
    ((env.fileSize = some LARGE_FILE_THRESHOLD ∨ env.fileSize = some 0 ∨
        env.fileSize = none) →
      stopRecording true true startTime env =
        ⟨.navigate (env.documentDirectory ++ persistName env.copyNow) true, true⟩) ∧
    (largeFileCond env.fileExists env.fileSize = true ↔
      env.fileExists = true ∧ ∃ s, env.fileSize = some s ∧ LARGE_FILE_THRESHOLD < s) := by
  have h' : ¬ elapsedMs startTime env.now < MIN_DURATION := by omega
  constructor
  · intro hsz
    have hlarge : largeFileCond env.fileExists env.fileSize = false := by
      rcases hsz with h | h | h <;> simp [largeFileCond, h]
    simp [stopRecording, h', hstop, hu, hinfo, hlarge, hcopy]
  · constructor
    · intro h
      rcases hex : env.fileExists with _ | _ <;> rcases hsz : env.fileSize with _ | s <;>
        simp [largeFileCond, hex, hsz] at h
      · exact ⟨rfl, s, rfl, h.2⟩
    · rintro ⟨hex, s, hsz, hbig⟩
      have hs0 : s ≠ 0 := by
        have : 0 < LARGE_FILE_THRESHOLD := by decide
        omega
      simp [largeFileCond, hex, hsz, hs0, hbig]

/-- Witness for C10 at a size of exactly 50 MiB: the asset is copied under
the generated name, and the bypass condition evaluates to false. -/
theorem persist_copy_default_witness :
    stopRecording true true (some 1000)
      ⟨6000, 7777, true, some "/rec/v.mp4", true, true, some LARGE_FILE_THRESHOLD, true,
        false, "docs/"⟩ =
      ⟨.navigate ("docs/" ++ persistName 7777) true, true⟩ ∧
    largeFileCond true (some LARGE_FILE_THRESHOLD) = false := by
  constructor
  · exact (persist_copy_default (some 1000)
      ⟨6000, 7777, true, some "/rec/v.mp4", true, true, some LARGE_FILE_THRESHOLD, true,
        false, "docs/"⟩
      "/rec/v.mp4" (by decide) rfl rfl rfl rfl).1 (Or.inl rfl)
  · decide

/-! ### Submission client -/

/-- C7: an upload POST that fails at the network layer (including the 30 s
timeout) or returns any HTTP status other than 202 ends in the
`Upload Failed` alert and never in the navigation that creates the upload
job and starts polling.  The surfaced reason is the server-provided
`error` field when the failure carries a response that has one, and
otherwise the error's own message (the axios transport message for a
non-2xx status, the message of the raised `Error` for a 2xx status other
than 202). -/
theorem analyzeVideo_non202_fails (v : String) :
    (∀ msg, analyzeVideo (some v) (.netError msg) = .uploadFailed msg) ∧
    (∀ status body, status ≠ 202 →
      analyzeVideo (some v) (.response status body) =
        .uploadFailed
          (if 200 ≤ status ∧ status < 300 then "Unexpected response status"
           else body.error.getD (axiosStatusMessage status))) ∧
    (∀ status body fid surl,
      analyzeVideo (some v) (.response status body) = .navigate fid surl →
        status = 202) := by
  refine ⟨fun msg => rfl, ?_, ?_⟩
  · intro status body hne
    by_cases h2xx : 200 ≤ status ∧ status < 300
    · simp [analyzeVideo, h2xx, hne]
    · simp [analyzeVideo, h2xx]
  · intro status body fid surl hnav
    by_cases h2xx : 200 ≤ status ∧ status < 300
    · by_cases h202 : status = 202
      · exact h202
      · simp [analyzeVideo, h2xx, h202] at hnav
    · simp [analyzeVideo, h2xx] at hnav

/-- Witness for C7 at HTTP 500 with a server error body: the surfaced
reason is the server message and the result is not a navigation. -/
theorem analyzeVideo_non202_fails_witness :
    (500 : Nat) ≠ 202 ∧
    analyzeVideo (some "file:///v.mp4")
        (.response 500 ⟨some "Internal Server Error", "", "", ""⟩) =
      .uploadFailed "Internal Server Error" := by
  refine ⟨by decide, ?_⟩
  have h := (analyzeVideo_non202_fails "file:///v.mp4").2.1 500
    ⟨some "Internal Server Error", "", "", ""⟩ (by decide)
  rwa [if_neg (by decide)] at h

/-! ### Feedback screen teardown -/

/-- C6: the teardown of the final feedback screen's caching effect cancels
the in-flight download and clears the mounted flag but performs no file
deletion: every file on disk — in particular the cached video the player
still references — survives the teardown unchanged. -/
theorem feedback_teardown_preserves_files (files : List String) (hasDownloadRef : Bool) :
    runTeardown files (cacheEffectCleanup hasDownloadRef) = files ∧
    (∀ u, TeardownEffect.deleteFile u ∉ cacheEffectCleanup hasDownloadRef) ∧
    (∀ cached, cached ∈ files →
      cached ∈ runTeardown files (cacheEffectCleanup hasDownloadRef)) := by
  have hrun : runTeardown files (cacheEffectCleanup hasDownloadRef) = files := by
    cases hasDownloadRef <;> simp [runTeardown, cacheEffectCleanup, applyEffect]
  refine ⟨hrun, ?_, ?_⟩
  · intro u
    cases hasDownloadRef <;> simp [cacheEffectCleanup]
  · intro cached hc
    rwa [hrun]

/-- Witness for C6: a concrete cached video present before teardown is
still present after it. -/
theorem feedback_teardown_preserves_files_witness :
    "cache/out_video.mp4" ∈ ["cache/out_video.mp4", "cache/older.mp4"] ∧
    "cache/out_video.mp4" ∈
      runTeardown ["cache/out_video.mp4", "cache/older.mp4"] (cacheEffectCleanup true) := by
  exact ⟨by decide,
    (feedback_teardown_preserves_files ["cache/out_video.mp4", "cache/older.mp4"] true).2.2
      "cache/out_video.mp4" (by decide)⟩

/-! ### Job status poller -/

/-- An event trace cannot change the poller state once the interval is
cleared and no request is in flight: ticks no longer fire, there is
nothing left to settle, and a repeated cleanup is a no-op. -/
theorem pollRun_of_dead {s : PollState} (h1 : s.intervalActive = false)
    (h2 : s.inFlight = 0) : ∀ tr, pollRun s tr = s := by
  have hstep : ∀ e, pollStep s e = s := by
    intro e
    cases e with
    | tick => simp [pollStep, h1]
    | respond r => simp [pollStep, h2]
    | cleanup =>
      cases s
      simp_all [pollStep]
  intro tr
  induction tr with
  | nil => rfl
  | cons e tr ih =>
    show pollRun (pollStep s e) tr = s
    rw [hstep e]
    exact ih

/-- Running a well-behaved `processing` polling prefix from a live state
with no request in flight issues one query per response, keeps the
interval installed, settles every request, and fires no terminal
transition. -/
theorem pollRun_seqPolls (ms : List String) (s : PollState)
    (hact : s.intervalActive = true) (hifz : s.inFlight = 0) :
    ∃ msg, pollRun s (seqPolls ms) =
      { s with queriesIssued := s.queriesIssued + ms.length, statusMessage := msg } := by
  induction ms generalizing s with
  | nil =>
    refine ⟨s.statusMessage, ?_⟩
    cases s
    simp [seqPolls, pollRun]
  | cons m ms ih =>
    have hstep : pollRun s (seqPolls (m :: ms)) =
        pollRun { s with queriesIssued := s.queriesIssued + 1, statusMessage := m }
          (seqPolls ms) := by
      show pollRun (pollStep (pollStep s .tick) (.respond (.ok "processing" m))) (seqPolls ms) = _
      congr 1
      simp [pollStep, hact, hifz, handleResponse]
    rw [hstep]
    obtain ⟨msg, hrun⟩ := ih { s with queriesIssued := s.queriesIssued + 1, statusMessage := m }
      hact hifz
    refine ⟨msg, ?_⟩
    rw [hrun]
    simp [Nat.add_comm, Nat.add_assoc, Nat.add_left_comm]

/-- `pollRun` splits over trace concatenation. -/
theorem pollRun_append (s : PollState) (l₁ l₂ : List PollEvent) :
    pollRun s (l₁ ++ l₂) = pollRun (pollRun s l₁) l₂ := by
  simp [pollRun]

/-- C1 counterexample: a poll whose response parses with the status
`"failed"` — neither `"processing"` nor `"completed"` — fires no terminal
callback at all (neither the failure alert nor the success hand-off),
leaves the interval installed, and a further status query is issued on the
next tick.  This contradicts the claim that such a response invokes the
terminal callback with a failure and cancels the interval: the `else`
branch of the handler is empty (its `throw` is commented out). -/
theorem poll_unknown_status_counterexample :
    (pollRun initialPollState
      [.tick, .respond (.ok "failed" "boom"), .tick]).terminalFailure = 0 ∧
    (pollRun initialPollState
      [.tick, .respond (.ok "failed" "boom"), .tick]).terminalSuccess = 0 ∧
    (pollRun initialPollState
      [.tick, .respond (.ok "failed" "boom"), .tick]).intervalActive = true ∧
    (pollRun initialPollState
      [.tick, .respond (.ok "failed" "boom"), .tick]).queriesIssued = 2 := by
  decide

/-- C1 amended: a parsed poll response whose status is neither
`"processing"` nor `"completed"` is ignored — it fires no terminal
transition and leaves the interval state unchanged, so polling continues.
Only a request error fires the terminal failure callback, and, provided
status queries do not overlap (each response is handled before the next
2000 ms tick fires), it fires exactly once: the interval is cancelled in
the same step, after which no further status queries are issued and no
further terminal transitions occur, whatever events follow.  (Without
that proviso two overlapping in-flight queries that both fail each run
the `catch` branch, as the callback holds no single-fire guard.) -/
theorem poll_unknown_status_amended :
    (∀ (s : PollState) (status msg : String),
      status ≠ "completed" → status ≠ "processing" →
        (pollStep s (.respond (.ok status msg))).terminalSuccess = s.terminalSuccess ∧
        (pollStep s (.respond (.ok status msg))).terminalFailure = s.terminalFailure ∧
        (pollStep s (.respond (.ok status msg))).intervalActive = s.intervalActive) ∧
    (∀ (ms : List String) (m : String) (tail : List PollEvent),
      pollRun initialPollState (seqPolls ms ++ .tick :: .respond (.reqError m) :: tail) =
        ⟨false, 0, ms.length + 1, 0, 1, ""⟩) := by
  constructor
  · intro s status msg h1 h2
    by_cases hf : s.inFlight = 0 <;>
      simp [pollStep, hf, handleResponse, h1, h2]
  · intro ms m tail
    obtain ⟨msg, hmid⟩ := pollRun_seqPolls ms initialPollState rfl rfl
    rw [pollRun_append, hmid]
    show pollRun (pollStep (pollStep _ .tick) (.respond (.reqError m))) tail = _
    have hterm : pollStep (pollStep
        { initialPollState with
            queriesIssued := initialPollState.queriesIssued + ms.length,
            statusMessage := msg } .tick) (.respond (.reqError m)) =
        ⟨false, 0, ms.length + 1, 0, 1, ""⟩ := by
      simp [pollStep, initialPollState, handleResponse, Nat.add_comm]
    rw [hterm]
    exact pollRun_of_dead rfl rfl tail

/-- Witness for the amended C1: a `"failed"` status response at the
initial state fires no terminal failure, and a well-behaved run that ends
in a request error after two `processing` responses fires the failure
exactly once with the interval cancelled and three queries issued in
total. -/
theorem poll_unknown_status_amended_witness :
    (("failed" : String) ≠ "completed" ∧ ("failed" : String) ≠ "processing" ∧
      (pollStep initialPollState (.respond (.ok "failed" "x"))).terminalFailure =
        initialPollState.terminalFailure) ∧
    pollRun initialPollState
        (seqPolls ["a", "b"] ++ .tick :: .respond (.reqError "net down") :: [.tick]) =
      ⟨false, 0, 3, 0, 1, ""⟩ := by
  refine ⟨⟨by decide, by decide, ?_⟩, ?_⟩
  · exact (poll_unknown_status_amended.1 initialPollState "failed" "x"
      (by decide) (by decide)).2.1
  · exact poll_unknown_status_amended.2 ["a", "b"] "net down" [.tick]

/-- C2 counterexample: when a status request is still in flight as the
next 2000 ms tick fires (response latency above the polling period), two
requests are in flight at once; if both settle with `"completed"`, the
terminal hand-off (`router.push('/feedback', ...)`) runs twice — the
callback holds no single-fire guard.  This contradicts the claim that the
hand-off occurs exactly once for every behaviour of the poller. -/
theorem poll_double_handoff_counterexample :
    (pollRun initialPollState
      [.tick, .tick, .respond (.ok "completed" ""),
        .respond (.ok "completed" "")]).terminalSuccess = 2 := by
  decide

/-- C2 amended: provided status queries do not overlap — each response is
handled before the next tick fires — a job that answers `"processing"`
some number of times and then `"completed"` produces exactly one terminal
hand-off; the interval is cancelled in the same step as the hand-off, so
no further status queries are issued and no further terminal transitions
occur, whatever events (later ticks, stray responses, cleanup) follow. -/
theorem poll_sequential_single_handoff (ms : List String) (m : String)
    (tail : List PollEvent) :
    pollRun initialPollState (seqPolls ms ++ .tick :: .respond (.ok "completed" m) :: tail) =
      ⟨false, 0, ms.length + 1, 1, 0, "Processing complete!"⟩ := by
  obtain ⟨msg, hmid⟩ := pollRun_seqPolls ms initialPollState rfl rfl
  rw [pollRun_append, hmid]
  show pollRun (pollStep (pollStep _ .tick) (.respond (.ok "completed" m))) tail = _
  have hterm : pollStep (pollStep
      { initialPollState with
          queriesIssued := initialPollState.queriesIssued + ms.length,
          statusMessage := msg } .tick) (.respond (.ok "completed" m)) =
      ⟨false, 0, ms.length + 1, 1, 0, "Processing complete!"⟩ := by
    simp [pollStep, initialPollState, handleResponse, Nat.add_comm]
  rw [hterm]
  exact pollRun_of_dead rfl rfl tail

/-! ### Local asset store: the filename order -/

/-- `charListLt` is the lexicographic strict order on character lists. -/
theorem charListLt_iff : ∀ (as bs : List Char),
    charListLt as bs = true ↔ List.Lex (· < ·) as bs := by
  intro as
  induction as with
  | nil =>
    intro bs
    cases bs with
    | nil =>
      constructor
      · intro h
        simp [charListLt] at h
      · intro h
        cases h
    | cons b bs =>
      constructor
      · intro _
        exact List.Lex.nil
      · intro _
        rfl
  | cons a as ih =>
    intro bs
    cases bs with
    | nil =>
      constructor
      · intro h
        simp [charListLt] at h
      · intro h
        cases h
    | cons b bs =>
      rcases lt_trichotomy a b with h | h | h
      · constructor
        · intro _
          exact List.Lex.rel h
        · intro _
          simp [charListLt, h]
      · subst h
        constructor
        · intro hc
          simp [charListLt, lt_irrefl] at hc
          exact List.Lex.cons ((ih bs).mp hc)
        · intro hc
          have : List.Lex (· < ·) as bs := by
            cases hc with
            | cons h' => exact h'
            | rel h' => exact absurd h' (lt_irrefl a)
          simp [charListLt, lt_irrefl, (ih bs).mpr this]
      · constructor
        · intro hc
          have hne : ¬ a < b := fun h' => absurd h (lt_asymm h')
          simp [charListLt, hne, h] at hc
        · intro hc
          cases hc with
          | rel h' => exact absurd h (lt_asymm h')
          | cons h' => exact absurd h (lt_irrefl a)

/-- `strLtb` coincides with Mathlib's lexicographic order on `String`. -/
theorem strLtb_iff (a b : String) : strLtb a b = true ↔ a < b :=
  (charListLt_iff a.data b.data).trans String.lt_iff_toList_lt.symm

/-- The sort comparator of the prune block is the non-strict lexicographic
filename order. -/
theorem strLe_iff (a b : String) : strLe a b ↔ a ≤ b := by
  unfold strLe
  rw [Bool.eq_false_iff, Ne, strLtb_iff]
  exact not_lt

theorem strLe_isTotal : IsTotal String strLe :=
  ⟨fun a b => by rw [strLe_iff, strLe_iff]; exact le_total a b⟩

theorem strLe_isTrans : IsTrans String strLe :=
  ⟨fun a b c hab hbc => by
    rw [strLe_iff] at hab hbc ⊢
    exact le_trans hab hbc⟩

theorem strLe_isAntisymm : IsAntisymm String strLe :=
  ⟨fun a b hab hba => by
    rw [strLe_iff] at hab hba
    exact le_antisymm hab hba⟩

/-- The sort of the prune block is a permutation of its input. -/
theorem sortByName_perm (l : List String) : List.Perm (sortByName l) l :=
  List.perm_insertionSort strLe l

/-- The sort of the prune block sorts ascending by filename. -/
theorem sortByName_sorted (l : List String) : List.Sorted strLe (sortByName l) := by
  haveI := strLe_isTotal
  haveI := strLe_isTrans
  exact List.sorted_insertionSort strLe l

/-- C8: the prune block deletes nothing while at most 3 video files are
listed; when `k > 3` video files are listed it deletes exactly the
`k - 3` oldest under the filename-derived lexicographic order — afterwards
exactly 3 video files remain, every remaining file was listed before,
every file without a video extension survives, and every evicted video
filename is lexicographically below every kept one — and deletion is
idempotent: erasing an absent file is a no-op rather than an error. -/
theorem prune_eviction (files : List String) (hnd : files.Nodup) :
    ((files.filter hasVideoExt).length ≤ MAX_CACHED_ASSETS → prune files = files) ∧
    (MAX_CACHED_ASSETS < (files.filter hasVideoExt).length →
      ((prune files).filter hasVideoExt).length = MAX_CACHED_ASSETS ∧
      (∀ f ∈ prune files, f ∈ files) ∧
      (∀ f ∈ files, hasVideoExt f = false → f ∈ prune files) ∧
      (∀ f ∈ files, hasVideoExt f = true → f ∉ prune files →
        ∀ g ∈ prune files, hasVideoExt g = true → f < g)) ∧
    (∀ (fs : List String) (u : String), u ∉ fs → fs.erase u = fs) := by
  refine ⟨?_, ?_, fun fs u h => List.erase_of_not_mem h⟩
  · intro h
    have h' : ¬ MAX_CACHED_ASSETS < (files.filter hasVideoExt).length := by omega
    simp [prune, h']
  · intro hk
    have hprune : prune files =
        ((sortByName (files.filter hasVideoExt)).take
          ((sortByName (files.filter hasVideoExt)).length - MAX_CACHED_ASSETS)).foldl
          (fun fs u => fs.erase u) files := by
      simp only [prune]
      rw [if_pos hk]
    set vids := files.filter hasVideoExt with hvids
    set sorted := sortByName vids with hsorteddef
    set dels := sorted.take (sorted.length - MAX_CACHED_ASSETS) with hdelsdef
    set kept := sorted.drop (sorted.length - MAX_CACHED_ASSETS) with hkeptdef
    have hdiff : prune files = files.diff dels := by
      rw [hprune]
      exact (List.diff_eq_foldl _ _).symm
    have hfilterform : prune files = files.filter (fun f => decide (f ∉ dels)) := by
      rw [hdiff]
      exact hnd.diff_eq_filter
    have hvnd : vids.Nodup := hnd.filter _
    have hperm : List.Perm sorted vids := sortByName_perm vids
    have hsnd : sorted.Nodup := hperm.nodup_iff.mpr hvnd
    have hslen : sorted.length = vids.length := hperm.length_eq
    have hsorted : List.Sorted strLe sorted := sortByName_sorted vids
    have hsplit : dels ++ kept = sorted := List.take_append_drop _ _
    have hndapp : (dels ++ kept).Nodup := by rw [hsplit]; exact hsnd
    have hdisj : ∀ x ∈ dels, x ∉ kept :=
      fun x hx hk' => (List.disjoint_of_nodup_append hndapp) hx hk'
    have hdisj' : ∀ y ∈ kept, y ∉ dels := fun y hy hyd => hdisj y hyd hy
    have hpair : ∀ x ∈ dels, ∀ y ∈ kept, strLe x y := by
      have hp : List.Pairwise strLe sorted := hsorted
      rw [← hsplit] at hp
      exact (List.pairwise_append.mp hp).2.2
    have hmem_kept : ∀ g, g ∈ files → hasVideoExt g = true → g ∉ dels → g ∈ kept := by
      intro g hgf hgv hgd
      have hgvids : g ∈ vids := List.mem_filter.mpr ⟨hgf, hgv⟩
      have : g ∈ dels ++ kept := by
        rw [hsplit]
        exact hperm.mem_iff.mpr hgvids
      rcases List.mem_append.mp this with h | h
      · exact absurd h hgd
      · exact h
    have hdels_video : ∀ f ∈ dels, hasVideoExt f = true := by
      intro f hf
      have : f ∈ vids := hperm.mem_iff.mp (List.take_subset _ _ hf)
      exact (List.mem_filter.mp this).2
    refine ⟨?_, ?_, ?_, ?_⟩
    · -- exactly 3 video files remain
      have hcomm : (prune files).filter hasVideoExt = vids.filter (fun f => decide (f ∉ dels)) := by
        rw [hfilterform, hvids, List.filter_comm]
      have hpermf : List.Perm (vids.filter (fun f => decide (f ∉ dels)))
          (sorted.filter (fun f => decide (f ∉ dels))) :=
        (hperm.filter _).symm
      have hsortedf : sorted.filter (fun f => decide (f ∉ dels)) = kept := by
        rw [← hsplit, List.filter_append]
        have h1 : dels.filter (fun f => decide (f ∉ dels)) = [] := by
          rw [List.filter_eq_nil_iff]
          intro a ha
          simp [ha]
        have h2 : kept.filter (fun f => decide (f ∉ dels)) = kept := by
          rw [List.filter_eq_self]
          intro a ha
          simp [hdisj' a ha]
        rw [h1, h2, List.nil_append]
      rw [hcomm, hpermf.length_eq, hsortedf, hkeptdef, List.length_drop]
      omega
    · -- every remaining file was listed
      intro f hf
      rw [hfilterform] at hf
      exact (List.mem_filter.mp hf).1
    · -- files without a video extension survive
      intro f hf hnv
      rw [hfilterform]
      refine List.mem_filter.mpr ⟨hf, ?_⟩
      have : f ∉ dels := by
        intro hfd
        rw [hdels_video f hfd] at hnv
        simp at hnv
      simp [this]
    · -- every evicted video name is below every kept one
      intro f hf hfv hfnp g hg hgv
      have hfd : f ∈ dels := by
        by_contra hfd
        exact hfnp (by
          rw [hfilterform]
          exact List.mem_filter.mpr ⟨hf, by simp [hfd]⟩)
      have hgk : g ∈ kept := by
        have hgf : g ∈ files := by
          rw [hfilterform] at hg
          exact (List.mem_filter.mp hg).1
        have hgd : g ∉ dels := by
          rw [hfilterform] at hg
          have := (List.mem_filter.mp hg).2
          simpa using this
        exact hmem_kept g hgf hgv hgd
      have hle : f ≤ g := (strLe_iff f g).mp (hpair f hfd g hgk)
      have hne : f ≠ g := by
        intro heq
        exact hdisj f hfd (heq ▸ hgk)
      exact lt_of_le_of_ne hle hne

/-- Witness for C8: a five-entry directory listing with four video files
prunes down to three video files, and erasing an absent name is a no-op. -/
theorem prune_eviction_witness :
    (["b.mp4", "a.mp4", "notes.txt", "c.mov", "d.avi"] : List String).Nodup ∧
    MAX_CACHED_ASSETS <
      ((["b.mp4", "a.mp4", "notes.txt", "c.mov", "d.avi"] : List String).filter
        hasVideoExt).length ∧
    ((prune ["b.mp4", "a.mp4", "notes.txt", "c.mov", "d.avi"]).filter hasVideoExt).length =
      MAX_CACHED_ASSETS ∧
    (["x.mp4"] : List String).erase "y.mp4" = ["x.mp4"] := by
  refine ⟨by decide, by decide, ?_, ?_⟩
  · exact ((prune_eviction ["b.mp4", "a.mp4", "notes.txt", "c.mov", "d.avi"]
      (by decide)).2.1 (by decide)).1
  · exact (prune_eviction ["b.mp4", "a.mp4", "notes.txt", "c.mov", "d.avi"]
      (by decide)).2.2 ["x.mp4"] "y.mp4" (by decide)

/-! ### Persisted copies accumulate unpruned -/

/-- C4 counterexample: four persist calls, each on an asset below the
50 MiB threshold, leave four copied video files — not three — in the
document directory that receives the copies, because no code path prunes
that directory (the only prune runs on the separate cache directory of
the feedback screen). -/
theorem persist_unbounded_counterexample :
    (persistCopies [(1700000000001, 5), (1700000000002, 5), (1700000000003, 700),
        (1700000000005, 0)] []).length = 4 ∧
    (persistCopies [(1700000000001, 5), (1700000000002, 5), (1700000000003, 700),
        (1700000000005, 0)] []).length ≠ 3 := by
  decide

/-- C4 amended: each under-threshold persist call leaves its copy in the
document directory permanently: after any sequence of such calls every
copy is still present (newest first) and the file count equals the number
of calls — after `N > 3` calls `N` copies remain, not 3.  The 3-file
eviction bound of the prune block applies only to the feedback screen's
cache directory, which never receives these copies. -/
theorem persistCopies_unbounded (calls : List (Nat × Nat))
    (hsz : ∀ p ∈ calls, p.2 ≤ LARGE_FILE_THRESHOLD) :
    persistCopies calls [] = ((calls.map Prod.fst).reverse).map persistName ∧
    (persistCopies calls []).length = calls.length := by
  have haux : ∀ (cs : List (Nat × Nat)) (dir : List String),
      (∀ p ∈ cs, p.2 ≤ LARGE_FILE_THRESHOLD) →
      persistCopies cs dir = ((cs.map Prod.fst).reverse).map persistName ++ dir := by
    intro cs
    induction cs with
    | nil =>
      intro dir _
      simp [persistCopies]
    | cons c rest ih =>
      rcases c with ⟨t, sz⟩
      intro dir hsz'
      have hszt : sz ≤ LARGE_FILE_THRESHOLD := hsz' (t, sz) (by simp)
      have hnotlarge : largeFileCond true (some sz) = false := by
        have h' : ¬ LARGE_FILE_THRESHOLD < sz := by omega
        simp [largeFileCond, h']
      show persistCopies rest (persistCopyStep dir t sz) = _
      rw [show persistCopyStep dir t sz = persistName t :: dir by
        simp [persistCopyStep, hnotlarge]]
      rw [ih (persistName t :: dir) (fun p hp => hsz' p (List.mem_cons_of_mem _ hp))]
      simp
  constructor
  · rw [haux calls [] hsz, List.append_nil]
  · rw [haux calls [] hsz, List.append_nil]
    simp

/-- Witness for the amended C4 at the counterexample's inputs: all four
copies remain, newest first. -/
theorem persistCopies_unbounded_witness :
    (∀ p ∈ ([(1700000000001, 5), (1700000000002, 5), (1700000000003, 700),
        (1700000000005, 0)] : List (Nat × Nat)), p.2 ≤ LARGE_FILE_THRESHOLD) ∧
    persistCopies [(1700000000001, 5), (1700000000002, 5), (1700000000003, 700),
        (1700000000005, 0)] [] =
      [persistName 1700000000005, persistName 1700000000003, persistName 1700000000002,
        persistName 1700000000001] ∧
    (persistCopies [(1700000000001, 5), (1700000000002, 5), (1700000000003, 700),
        (1700000000005, 0)] []).length = 4 := by
  have h := persistCopies_unbounded
    [(1700000000001, 5), (1700000000002, 5), (1700000000003, 700), (1700000000005, 0)]
    (by decide)
  exact ⟨by decide, h.1, h.2⟩
